import Mathlib

/-!
Verification of the meta-mind-core graph-editor kernel.

Shallow embedding of the JavaScript sources:
  src/meta-mind-core.js          (kernel v4.0, suffix V4)
  src/unnamed/part_000           (kernel v3.2, suffix V32)
  src/stable/v11/meta-mind-core.js (kernel v4.1, suffix V11)
  src/stable/v12/phase-engines.js  (presentation engines v5.0)

Numbers that the JavaScript holds as IEEE doubles are modelled as exact
rationals; machine randomness (crypto.randomUUID, Math.random-based
generateId) is modelled by passing the produced id as an explicit
argument; the DOM element targeted by the reconciliation code is
modelled as a record of its tag, displayed value and focus flag.
-/

namespace MetaMind

/-- A node of the graph.  Fields follow the v4.0 kernel; the v4.1 kernel
stores the coordinates as two separate fields x and y, modelled here by
the single pair pos. -/
structure Node where
  id : String
  title : String
  content : String
  type : String
  pos : ℚ × ℚ
deriving DecidableEq

/-- A directed edge of the graph. -/
structure Edge where
  id : String
  source : String
  target : String
  type : String
deriving DecidableEq

/-- The viewport: a translation plus a uniform scale. -/
structure Viewport where
  x : ℚ
  y : ℚ
  scale : ℚ
deriving DecidableEq

/-- One history snapshot: the serialized (nodes, edges) pair. -/
abbrev Snapshot := List Node × List Edge

/-- The kernel state (this.state in every kernel variant). -/
structure GraphState where
  nodes : List Node
  edges : List Edge
  selectedId : Option String
  viewport : Viewport
  history : List Snapshot
deriving DecidableEq

/-- The default empty state built by the v4.0 constructor when storage is
empty. -/
def emptyState : GraphState :=
  { nodes := [], edges := [], selectedId := none
    viewport := { x := 0, y := 0, scale := 1 }, history := [] }

/-- JavaScript s1 or-else s2 on strings: the empty string is falsy. -/
def jsOr (v : Option String) (d : String) : String :=
  match v with
  | some s => if s = "" then d else s
  | none => d

/-! ## Viewport transform (src/meta-mind-core.js, zoom and screenToWorld) -/

/-- zoom of the v4.0 kernel.  The scale is clamped to the band from 1/10
to 5; the translation is adjusted towards the zoom center only when both
center coordinates are supplied (the JavaScript tests
cx !== undefined && cy !== undefined). -/
def zoom (v : Viewport) (delta : ℚ) (cx cy : Option ℚ) : Viewport :=
  let oldScale := v.scale
  let newScale := max (1/10) (min 5 (oldScale + delta))
  let zr := newScale / oldScale
  match cx, cy with
  | some cx, some cy =>
      { x := cx - (cx - v.x) * zr, y := cy - (cy - v.y) * zr, scale := newScale }
  | _, _ => { v with scale := newScale }

/-- screenToWorld of the v4.0 kernel. -/
def screenToWorld (v : Viewport) (sx sy : ℚ) : ℚ × ℚ :=
  ((sx - v.x) / v.scale, (sy - v.y) / v.scale)

/-! ## CRUD operations -/

/-- The ordered-pair test used by addEdge's duplicate lookup. -/
def isPair (a b : String) (e : Edge) : Bool := e.source = a ∧ e.target = b

/-- addEdge of the v4.0 kernel: reject self-loops and duplicate ordered
pairs silently, otherwise append one new edge.  The id that
crypto.randomUUID would produce is passed as newId. -/
def addEdgeV4 (s : GraphState) (source target ty newId : String) :
    GraphState :=
  if source = target then s
  else if (s.edges.find? (isPair source target)).isSome then s
  else
    { s with
      edges := s.edges ++
        [{ id := newId, source := source, target := target, type := ty }] }

/-- saveHistory (textually identical in the v3.2 and v4.1 kernels): push
the current (nodes, edges) snapshot, then shift the oldest entry off if
the stack now exceeds 50 entries. -/
def saveHistory (s : GraphState) : GraphState :=
  let h := s.history ++ [(s.nodes, s.edges)]
  { s with history := if 50 < h.length then h.drop 1 else h }

/-- deleteNode of the v4.0 kernel: drop the node, drop every edge that
references it, clear the selection only when it referenced the deleted
node. -/
def deleteNodeV4 (s : GraphState) (id : String) : GraphState :=
  { s with
    nodes := s.nodes.filter (fun n => n.id ≠ id),
    edges := s.edges.filter (fun e => e.source ≠ id ∧ e.target ≠ id),
    selectedId := if s.selectedId = some id then none else s.selectedId }

/-- deleteNode of the v3.2 kernel: same node and edge filters, but the
selection is cleared unconditionally, and a history snapshot of the
post-mutation state is pushed. -/
def deleteNodeV32 (s : GraphState) (id : String) : GraphState :=
  saveHistory
    { s with
      nodes := s.nodes.filter (fun n => n.id ≠ id),
      edges := s.edges.filter (fun e => e.source ≠ id ∧ e.target ≠ id),
      selectedId := none }

/-- undo of the v3.2 kernel: no-op when the stack holds fewer than 2
entries; otherwise pop the top entry, then read (without popping) the new
top and restore its nodes and edges.  The branch returning s when the
popped stack is empty is unreachable under the length guard. -/
def undoV32 (s : GraphState) : GraphState :=
  if s.history.length < 2 then s
  else
    let h := s.history.dropLast
    match h.getLast? with
    | some prev => { s with history := h, nodes := prev.1, edges := prev.2 }
    | none => s

/-- The config object accepted by the v3.2 addNode (style, origin and
policy metadata are opaque to every claim and omitted from the node
model). -/
structure NodeConfig where
  title : Option String := none
  content : Option String := none
  type : Option String := none
  pos : Option (ℚ × ℚ) := none
deriving DecidableEq

/-- addNode of the v3.2 kernel: push the node built from the config with
defaults, select it, then push a history snapshot of the post-mutation
state.  The id produced by crypto.randomUUID is passed as newId. -/
def addNodeV32 (s : GraphState) (cfg : NodeConfig) (newId : String) :
    GraphState :=
  saveHistory
    { s with
      nodes := s.nodes ++
        [{ id := newId, title := jsOr cfg.title "New Node",
           content := jsOr cfg.content "", type := jsOr cfg.type "concept",
           pos := cfg.pos.getD (0, 0) }],
      selectedId := some newId }

/-- addEdge of the v3.2 kernel: same self-loop and duplicate guards as
v4.0, and a history snapshot is pushed when an edge is appended (the
nodechain weight metadata is opaque to every claim and omitted). -/
def addEdgeV32 (s : GraphState) (source target ty newId : String) :
    GraphState :=
  if source = target then s
  else if (s.edges.find? (isPair source target)).isSome then s
  else
    saveHistory
      { s with
        edges := s.edges ++
          [{ id := newId, source := source, target := target, type := ty }] }

/-- The partial-update object taken by updateNode. -/
structure NodeUpdates where
  title : Option String := none
  content : Option String := none
  type : Option String := none
  pos : Option (ℚ × ℚ) := none
deriving DecidableEq

/-- Object.assign of an update object onto a node. -/
def applyUpdates (n : Node) (u : NodeUpdates) : Node :=
  { n with title := u.title.getD n.title, content := u.content.getD n.content,
           type := u.type.getD n.type, pos := u.pos.getD n.pos }

/-- Mutate the first node carrying the given id, as the JavaScript
find-then-assign does; no-op when no node matches. -/
def updateFirst : List Node → String → NodeUpdates → List Node
  | [], _, _ => []
  | n :: rest, id, u =>
    if n.id = id then applyUpdates n u :: rest
    else n :: updateFirst rest id u

/-- updateNode of the v3.2 kernel: no history snapshot is pushed. -/
def updateNodeV32 (s : GraphState) (id : String) (u : NodeUpdates) :
    GraphState :=
  { s with nodes := updateFirst s.nodes id u }

/-- One call to a mutating operation of the v3.2 kernel; ids produced by
crypto.randomUUID travel in the constructor. -/
inductive Op where
  | addNode (cfg : NodeConfig) (newId : String)
  | addEdge (source target ty newId : String)
  | deleteNode (id : String)
  | updateNode (id : String) (u : NodeUpdates)
  | undo
deriving DecidableEq

def applyOpV32 (op : Op) (s : GraphState) : GraphState :=
  match op with
  | .addNode cfg newId => addNodeV32 s cfg newId
  | .addEdge a b ty newId => addEdgeV32 s a b ty newId
  | .deleteNode id => deleteNodeV32 s id
  | .updateNode id u => updateNodeV32 s id u
  | .undo => undoV32 s

/-! ## v4.1 kernel: blueprints and addNode (for id uniqueness) -/

structure Blueprint where
  label : String
  icon : String
  defaultContent : String
  priority : Nat
deriving DecidableEq

/-- The blueprint table of the v4.1 kernel (object lookup with a fallback
entry for unknown keys). -/
def getBlueprint (ty : String) : Blueprint :=
  if ty = "profile" then
    { label := "User Profile", icon := "👤", defaultContent := "Identity Root", priority := 0 }
  else if ty = "hub" then
    { label := "Central Hub", icon := "💠", defaultContent := "Category Root", priority := 1 }
  else if ty = "web-root" then
    { label := "Website Root", icon := "🌐", defaultContent := "My Awesome Site", priority := 2 }
  else if ty = "web-nav" then
    { label := "Navigation Bar", icon := "🧭", defaultContent := "Home | About | Contact", priority := 3 }
  else if ty = "logic-gate" then
    { label := "Logic Gate", icon := "⚡", defaultContent := "IF (condition) THEN", priority := 5 }
  else if ty = "web-hero" then
    { label := "Hero Section", icon := "⭐", defaultContent := "Welcome.", priority := 6 }
  else if ty = "web-feature" then
    { label := "Feature Block", icon := "✨", defaultContent := "<h3>Feature</h3>", priority := 7 }
  else if ty = "web-footer" then
    { label := "Footer", icon := "🦶", defaultContent := "© 2026", priority := 9 }
  else if ty = "note" then
    { label := "Sticky Note", icon := "📝", defaultContent := "Quick thought...", priority := 10 }
  else
    { label := "Unknown Node", icon := "⚪", defaultContent := "...", priority := 99 }

/-- The nodeData object accepted by the v4.1 addNode. -/
structure V11NodeData where
  id : Option String := none
  x : Option ℚ := none
  y : Option ℚ := none
  title : Option String := none
  type : Option String := none
  content : Option String := none
deriving DecidableEq

/-- addNode of the v4.1 kernel: push a history snapshot first, then use
the caller-supplied id when present and truthy, else the generated one,
and append the node built from blueprint defaults.  The auto-arrange call
that follows only repositions nodes and recenters the viewport: it
neither adds nor removes nodes nor changes any id, and is omitted here
together with notify. -/
def addNodeV11 (s : GraphState) (d : V11NodeData) (genId : String) :
    GraphState :=
  let s1 := saveHistory s
  let id := jsOr d.id genId
  let bp := getBlueprint (jsOr d.type "note")
  { s1 with
    nodes := s1.nodes ++
      [{ id := id, title := jsOr d.title bp.label,
         content := jsOr d.content bp.defaultContent,
         type := jsOr d.type "note", pos := (d.x.getD 0, d.y.getD 0) }] }

/-- The id a v4.1 addNode call actually uses. -/
def usedIdV11 (d : V11NodeData) (genId : String) : String := jsOr d.id genId

/-- Every call of the sequence uses an id that is fresh with respect to
the state it executes in. -/
def freshCallsV11 : GraphState → List (V11NodeData × String) → Bool
  | _, [] => true
  | s, (d, g) :: rest =>
    (!(s.nodes.any (fun n => n.id = usedIdV11 d g))) &&
      freshCallsV11 (addNodeV11 s d g) rest

/-- Run a sequence of v4.1 addNode calls. -/
def runAddsV11 : GraphState → List (V11NodeData × String) → GraphState
  | s, [] => s
  | s, (d, g) :: rest => runAddsV11 (addNodeV11 s d g) rest

/-! ## Concrete states used by witnesses and counterexamples -/

def nodeA : Node :=
  { id := "A", title := "A", content := "", type := "concept", pos := (0, 0) }

def nodeB : Node :=
  { id := "B", title := "B", content := "", type := "concept", pos := (0, 0) }

def edgeAB : Edge :=
  { id := "e1", source := "A", target := "B", type := "default" }

def edgeBA : Edge :=
  { id := "e2", source := "B", target := "A", type := "default" }

def c5State : GraphState :=
  { nodes := [nodeA, nodeB], edges := [edgeAB], selectedId := some "B",
    viewport := { x := 0, y := 0, scale := 1 }, history := [] }

def c1State : GraphState :=
  { nodes := [nodeA], edges := [], selectedId := some "A",
    viewport := { x := 0, y := 0, scale := 1 },
    history := [([], []), ([nodeA], [])] }

/-- A state with exactly 50 history entries, for the eviction witness. -/
def hist50State : GraphState :=
  { emptyState with history := List.replicate 50 ([], []) }

def dupData : V11NodeData := { id := some "a" }

/-! ## C8: persistence load

The blob store (localStorage.getItem on the fixed key) is modelled as an
Option String; JSON.parse is modelled as an arbitrary parse function p
whose error value stands for the thrown SyntaxError; a load that lets an
exception escape to its caller is an Except.error result. -/

/-- loadFromStorage of the v3.2 kernel: no try/catch, so a parse error
escapes to the caller (the constructor).  A missing or empty blob is
falsy and yields null without parsing. -/
def loadV32 (p : String → Except Unit GraphState) (blob : Option String) :
    Except Unit (Option GraphState) :=
  match blob with
  | none => .ok none
  | some s => if s = "" then .ok none else (p s).map some

/-- loadFromStorage of the v4.0 kernel: the same lookup wrapped in
try/catch, turning any parse error into null. -/
def loadV4 (p : String → Except Unit GraphState) (blob : Option String) :
    Except Unit (Option GraphState) :=
  match blob with
  | none => .ok none
  | some s =>
    if s = "" then .ok none
    else
      match p s with
      | .ok g => .ok (some g)
      | .error _ => .ok none

/-! ## C9: reconciliation focus preservation (src/stable/v12/phase-engines.js)

A DOM form element is modelled by its tag, its displayed value and
whether it is the document's active (focused) element. -/

inductive FieldTag where
  | input
  | textarea
  | select
deriving DecidableEq

structure EditField where
  tag : FieldTag
  value : String
  focused : Bool
deriving DecidableEq

/-- setVal of UniversalPhaseEngine.updateValues: write the value only
when the element is not focused, then always resynchronize SELECT
elements whose value mismatches, focused or not. -/
def setVal (f : EditField) (val : String) : EditField :=
  let f1 := if f.focused then f else { f with value := val }
  if f1.tag = FieldTag.select ∧ f1.value ≠ val then { f1 with value := val }
  else f1

/-- The value update inside TreePhaseEngine's ensureRow: write the title
only when the row's input is not the active element. -/
def ensureRowUpdate (f : EditField) (title : String) : EditField :=
  if f.focused then f else { f with value := title }

/-! ## C2: auto-layout on cyclic graphs (src/meta-mind-core.js)

The v4.0 _layoutRecursive has no visited set.  The positions it writes
with node.position = ... are tracked in an assignment list keyed by node
id; the node and edge lists themselves are never structurally changed by
the layout, so they stay fixed parameters.  The recursion carries
explicit fuel: a none result means the fuel bound was hit, so unbounded
recursion is the statement that every fuel bound is exhausted. -/

abbrev PosMap := List (String × ℚ × ℚ)

mutual

/-- _layoutRecursive of the v4.0 kernel, fueled: look the node up, write
its position, collect the child nodes reachable over outgoing edges, and
lay them out left to right with no cycle guard. -/
def layoutRecV4 (nodes : List Node) (edges : List Edge) (sx sy : ℚ)
    (fuel : Nat) (nodeId : String) (x y : ℚ) (pm : PosMap) :
    Option PosMap :=
  match fuel with
  | 0 => none
  | fuel' + 1 =>
    match nodes.find? (fun n => n.id = nodeId) with
    | none => some pm
    | some _ =>
      let pm1 := pm.map (fun q => if q.1 = nodeId then (q.1, x, y) else q)
      let children := (edges.filter (fun e => e.source = nodeId)).filterMap
        (fun e => (nodes.find? (fun n => n.id = e.target)).map (fun n => n.id))
      if 0 < children.length then
        let width := ((children.length : ℚ) - 1) * sx
        layoutKidsV4 nodes edges sx sy fuel' children (x - width / 2)
          (y + sy) pm1
      else some pm1
termination_by (fuel, 0)

/-- The forEach over the children inside _layoutRecursive: recurse into
each child, advancing the running x cursor by the horizontal spacing. -/
def layoutKidsV4 (nodes : List Node) (edges : List Edge) (sx sy : ℚ)
    (fuel : Nat) (kids : List String) (cx cy : ℚ) (pm : PosMap) :
    Option PosMap :=
  match kids with
  | [] => some pm
  | k :: rest =>
    match layoutRecV4 nodes edges sx sy fuel k cx cy pm with
    | none => none
    | some pm1 => layoutKidsV4 nodes edges sx sy fuel rest (cx + sx) cy pm1
termination_by (fuel, kids.length + 1)

end

mutual

/-- _getBranchHeight of the v4.0 kernel, fueled (it recurses over
outgoing edges with no cycle guard either). -/
def getBranchHeightV4 (edges : List Edge) (sy : ℚ) (fuel : Nat)
    (nodeId : String) : Option ℚ :=
  match fuel with
  | 0 => none
  | fuel' + 1 =>
    let children := edges.filter (fun e => e.source = nodeId)
    if children.length = 0 then some sy
    else branchHeightSumV4 edges sy fuel' children
termination_by (fuel, 0)

/-- The reduce accumulating the child branch heights. -/
def branchHeightSumV4 (edges : List Edge) (sy : ℚ) (fuel : Nat)
    (es : List Edge) : Option ℚ :=
  match es with
  | [] => some 0
  | e :: rest =>
    match getBranchHeightV4 edges sy fuel e.target with
    | none => none
    | some h =>
      match branchHeightSumV4 edges sy fuel rest with
      | none => none
      | some acc => some (h + acc)
termination_by (fuel, es.length + 1)

end

/-- The forEach over roots inside autoLayout: lay out each root subtree,
advancing the vertical offset by the branch height plus spacing. -/
def layoutRootsV4 (nodes : List Node) (edges : List Edge) (sx sy : ℚ)
    (fuel : Nat) : List Node → ℚ → PosMap → Option PosMap
  | [], _, pm => some pm
  | r :: rest, startY, pm =>
    match layoutRecV4 nodes edges sx sy fuel r.id 0 startY pm with
    | none => none
    | some pm1 =>
      match getBranchHeightV4 edges sy fuel r.id with
      | none => none
      | some bh =>
        layoutRootsV4 nodes edges sx sy fuel rest (startY + bh + sy) pm1

/-- autoLayout of the v4.0 kernel: roots are the nodes with no incoming
edge; with nodes present but no root (a fully cyclic graph) the first
node in insertion order is laid out instead; otherwise the roots are
stacked vertically. -/
def autoLayoutV4 (fuel : Nat) (nodes : List Node) (edges : List Edge)
    (sx sy : ℚ) : Option PosMap :=
  let pm0 : PosMap := nodes.map (fun n => (n.id, n.pos))
  let targets := edges.map (fun e => e.target)
  let roots := nodes.filter (fun n => !(targets.contains n.id))
  if roots.length = 0 ∧ 0 < nodes.length then
    match nodes with
    | n :: _ => layoutRecV4 nodes edges sx sy fuel n.id 0 0 pm0
    | [] => some pm0
  else
    layoutRootsV4 nodes edges sx sy fuel roots 0 pm0

/-- The two-node cyclic graph A to B to A from the claim. -/
def cycNodes : List Node := [nodeA, nodeB]

def cycEdges : List Edge := [edgeAB, edgeBA]

/-! ## Theorems -/

theorem newScale_pos (s delta : ℚ) : 0 < max (1/10) (min 5 (s + delta)) :=
  lt_of_lt_of_le (by norm_num) (le_max_left _ _)

/-- C3: zoom with both center coordinates sets the scale to the clamp of
old scale + delta into the band from 1/10 to 5, and the world point under
the screen coordinate (cx, cy) is the same before and after the zoom
(exactly, in rational arithmetic). -/
theorem claim_C3_zoom_invariant (v : Viewport) (delta cx cy : ℚ)
    (h : 0 < v.scale) :
    (zoom v delta (some cx) (some cy)).scale
      = max (1/10) (min 5 (v.scale + delta)) ∧
    screenToWorld (zoom v delta (some cx) (some cy)) cx cy
      = screenToWorld v cx cy := by
  constructor
  · rfl
  · have hns : (0 : ℚ) < max (1/10) (min 5 (v.scale + delta)) :=
      newScale_pos v.scale delta
    have hs : v.scale ≠ 0 := ne_of_gt h
    have hns' : max (1/10) (min 5 (v.scale + delta)) ≠ 0 := ne_of_gt hns
    simp only [zoom, screenToWorld, Prod.mk.injEq]
    constructor
    · field_simp
      ring
    · field_simp
      ring

/-- Witness for C3 at a concrete viewport. -/
theorem claim_C3_zoom_invariant_witness :
    (zoom { x := 3, y := 4, scale := 1 } 1 (some 7) (some 9)).scale
      = max (1/10) (min 5 ((1 : ℚ) + 1)) ∧
    screenToWorld (zoom { x := 3, y := 4, scale := 1 } 1 (some 7) (some 9)) 7 9
      = screenToWorld { x := 3, y := 4, scale := 1 } 7 9 :=
  claim_C3_zoom_invariant { x := 3, y := 4, scale := 1 } 1 7 9 (by norm_num)

/-- C10: when either center coordinate is missing, zoom still clamps the
scale but leaves the translation untouched. -/
theorem claim_C10_zoom_missing_center (v : Viewport) (delta : ℚ)
    (cx cy : Option ℚ) (h : cx = none ∨ cy = none) :
    (zoom v delta cx cy).scale = max (1/10) (min 5 (v.scale + delta)) ∧
    (zoom v delta cx cy).x = v.x ∧ (zoom v delta cx cy).y = v.y := by
  rcases h with h | h
  · subst h
    cases cy <;> simp [zoom]
  · subst h
    cases cx <;> simp [zoom]

/-- Witness for C10 at a concrete viewport. -/
theorem claim_C10_zoom_missing_center_witness :
    (zoom { x := 3, y := 4, scale := 1 } 1 none (some 9)).scale
      = max (1/10) (min 5 ((1 : ℚ) + 1)) ∧
    (zoom { x := 3, y := 4, scale := 1 } 1 none (some 9)).x = 3 ∧
    (zoom { x := 3, y := 4, scale := 1 } 1 none (some 9)).y = 4 :=
  claim_C10_zoom_missing_center { x := 3, y := 4, scale := 1 } 1 none (some 9)
    (Or.inl rfl)

@[simp]
theorem isPair_eq_true (a b : String) (e : Edge) :
    isPair a b e = true ↔ (e.source = a ∧ e.target = b) := by
  simp [isPair]

/-! ## C1: undo -/

/-- C1 counterexample: a state with 2 history entries and a live
selection; the v3.2 undo restores nodes and edges but does not clear the
selection, contradicting the claim that undo clears it. -/
theorem claim_C1_counterexample :
    2 ≤ c1State.history.length ∧ c1State.selectedId = some "A" ∧
    (undoV32 c1State).selectedId ≠ none := by decide

/-- C1 (amended): with fewer than 2 history entries undo is a no-op; with
at least 2 it pops the top entry and restores nodes and edges from the
new top without popping it; the selection and the viewport are always
left unchanged. -/
theorem claim_C1_undo (s : GraphState) :
    (undoV32 s).selectedId = s.selectedId ∧
    (undoV32 s).viewport = s.viewport ∧
    (s.history.length < 2 → undoV32 s = s) ∧
    (2 ≤ s.history.length →
      ∃ prev, s.history.dropLast.getLast? = some prev ∧
        (undoV32 s).nodes = prev.1 ∧ (undoV32 s).edges = prev.2 ∧
        (undoV32 s).history = s.history.dropLast) := by
  by_cases h : s.history.length < 2
  · refine ⟨by simp [undoV32, h], by simp [undoV32, h], fun _ => by simp [undoV32, h],
      fun h2 => absurd h2 (by omega)⟩
  · have hne : s.history.dropLast ≠ [] := by
      apply List.ne_nil_of_length_pos
      rw [List.length_dropLast]
      omega
    have hlast : s.history.dropLast.getLast? =
        some (s.history.dropLast.getLast hne) :=
      List.getLast?_eq_getLast _ hne
    refine ⟨by simp [undoV32, h, hlast], by simp [undoV32, h, hlast],
      fun hlt => absurd hlt h,
      fun _ => ⟨s.history.dropLast.getLast hne, hlast, by simp [undoV32, h, hlast],
        by simp [undoV32, h, hlast], by simp [undoV32, h, hlast]⟩⟩

/-- Witness for C1: both branches of the amended statement at concrete
states. -/
theorem claim_C1_undo_witness :
    undoV32 emptyState = emptyState ∧
    (∃ prev, c1State.history.dropLast.getLast? = some prev ∧
      (undoV32 c1State).nodes = prev.1 ∧ (undoV32 c1State).edges = prev.2 ∧
      (undoV32 c1State).history = c1State.history.dropLast) :=
  ⟨(claim_C1_undo emptyState).2.2.1 (by decide),
   (claim_C1_undo c1State).2.2.2 (by decide)⟩

/-! ## C4: addEdge -/

theorem addEdgeV4_dup (s : GraphState) (a b ty n : String)
    (h : ∃ e ∈ s.edges, e.source = a ∧ e.target = b) :
    addEdgeV4 s a b ty n = s := by
  obtain ⟨e, he, hp⟩ := h
  by_cases hab : a = b
  · simp [addEdgeV4, hab]
  · have hsome : (s.edges.find? (isPair a b)).isSome := by
      rw [List.find?_isSome]
      exact ⟨e, he, by simp [hp.1, hp.2]⟩
    simp [addEdgeV4, hab, hsome]

theorem addEdgeV4_new (s : GraphState) (a b ty n : String) (hab : a ≠ b)
    (hnone : ∀ e ∈ s.edges, ¬(e.source = a ∧ e.target = b)) :
    (addEdgeV4 s a b ty n).edges
      = s.edges ++ [{ id := n, source := a, target := b, type := ty }] := by
  have hfind : s.edges.find? (isPair a b) = none := by
    rw [List.find?_eq_none]
    intro e he
    simp only [isPair_eq_true]
    exact hnone e he
  simp [addEdgeV4, hab, hfind]

/-- C4: addEdge leaves the state unchanged on a self-loop or a duplicate
ordered pair, appends exactly one edge otherwise, and two identical calls
produce exactly one edge with that ordered pair. -/
theorem claim_C4_addEdge (s : GraphState) (a b ty n1 n2 : String) :
    (addEdgeV4 s a a ty n1 = s) ∧
    ((∃ e ∈ s.edges, e.source = a ∧ e.target = b) →
      addEdgeV4 s a b ty n1 = s) ∧
    (a ≠ b → (∀ e ∈ s.edges, ¬(e.source = a ∧ e.target = b)) →
      (addEdgeV4 s a b ty n1).edges
        = s.edges ++ [{ id := n1, source := a, target := b, type := ty }]) ∧
    (a ≠ b → s.edges.countP (isPair a b) = 0 →
      (addEdgeV4 (addEdgeV4 s a b ty n1) a b ty n2).edges.countP (isPair a b)
        = 1) := by
  refine ⟨by simp [addEdgeV4], fun h => addEdgeV4_dup s a b ty n1 h,
    fun hab hnone => addEdgeV4_new s a b ty n1 hab hnone,
    fun hab h0 => ?_⟩
  have hnone : ∀ e ∈ s.edges, ¬(e.source = a ∧ e.target = b) := by
    intro e he
    have := List.countP_eq_zero.mp h0 e he
    simpa using this
  have h1 := addEdgeV4_new s a b ty n1 hab hnone
  have hmem : ({ id := n1, source := a, target := b, type := ty } : Edge)
      ∈ (addEdgeV4 s a b ty n1).edges := by
    rw [h1]
    simp
  have h2 : addEdgeV4 (addEdgeV4 s a b ty n1) a b ty n2
      = addEdgeV4 s a b ty n1 :=
    addEdgeV4_dup _ a b ty n2 ⟨_, hmem, rfl, rfl⟩
  rw [h2, h1, List.countP_append, h0]
  simp [List.countP_cons, isPair]

/-- Witness for C4 at a concrete state: duplicate rejection, the append
case and the two-identical-calls case. -/
theorem claim_C4_addEdge_witness :
    (addEdgeV4 c5State "A" "B" "default" "e9" = c5State) ∧
    ((addEdgeV4 c5State "B" "A" "default" "e9").edges
      = c5State.edges ++
        [{ id := "e9", source := "B", target := "A", type := "default" }]) ∧
    ((addEdgeV4 (addEdgeV4 emptyState "A" "B" "d" "e1") "A" "B" "d" "e2").edges.countP
        (isPair "A" "B") = 1) :=
  ⟨(claim_C4_addEdge c5State "A" "B" "default" "e9" "x").2.1
    ⟨edgeAB, by decide, by decide⟩,
   (claim_C4_addEdge c5State "B" "A" "default" "e9" "x").2.2.1
    (by decide) (by decide),
   (claim_C4_addEdge emptyState "A" "B" "d" "e1" "e2").2.2.2
    (by decide) (by decide)⟩

/-! ## C5: deleteNode -/

/-- C5 counterexample: the v3.2 deleteNode clears the selection even when
the selection did not equal the deleted id, contradicting the claim that
the selection is cleared if and only if it equaled the deleted id. -/
theorem claim_C5_counterexample :
    (c5State.nodes.any fun n => n.id = "A") = true ∧
    c5State.selectedId = some "B" ∧
    (deleteNodeV32 c5State "A").selectedId ≠ c5State.selectedId := by decide

/-- C5 (amended): both deleteNode variants remove the node and cascade
edge deletion; the v4.0 variant clears the selection exactly when it
equaled the deleted id and is a no-op on an absent id for states whose
edges and selection reference existing nodes; the v3.2 variant clears the
selection unconditionally. -/
theorem claim_C5_deleteNode (s : GraphState) (id : String) :
    (∀ e ∈ (deleteNodeV4 s id).edges, e.source ≠ id ∧ e.target ≠ id) ∧
    (∀ n ∈ (deleteNodeV4 s id).nodes, n.id ≠ id) ∧
    (∀ n ∈ s.nodes, n.id ≠ id → n ∈ (deleteNodeV4 s id).nodes) ∧
    (s.selectedId = some id → (deleteNodeV4 s id).selectedId = none) ∧
    (s.selectedId ≠ some id → (deleteNodeV4 s id).selectedId = s.selectedId) ∧
    ((∀ n ∈ s.nodes, n.id ≠ id) →
      (∀ e ∈ s.edges, (∃ n ∈ s.nodes, n.id = e.source) ∧
        (∃ n ∈ s.nodes, n.id = e.target)) →
      (s.selectedId = none ∨ ∃ n ∈ s.nodes, some n.id = s.selectedId) →
      deleteNodeV4 s id = s) ∧
    (∀ e ∈ (deleteNodeV32 s id).edges, e.source ≠ id ∧ e.target ≠ id) ∧
    (∀ n ∈ (deleteNodeV32 s id).nodes, n.id ≠ id) ∧
    (deleteNodeV32 s id).selectedId = none := by
  refine ⟨?_, ?_, ?_, ?_, ?_, ?_, ?_, ?_, ?_⟩
  · intro e he
    have := List.mem_filter.mp he
    simpa using this.2
  · intro n hn
    have := List.mem_filter.mp hn
    simpa using this.2
  · intro n hn hne
    exact List.mem_filter.mpr ⟨hn, by simpa using hne⟩
  · intro hsel
    simp [deleteNodeV4, hsel]
  · intro hsel
    simp [deleteNodeV4, hsel]
  · intro hnodes hedges hsel
    have hn : s.nodes.filter (fun n => n.id ≠ id) = s.nodes :=
      List.filter_eq_self.mpr fun n hn => by simpa using hnodes n hn
    have he : s.edges.filter (fun e => e.source ≠ id ∧ e.target ≠ id)
        = s.edges := by
      apply List.filter_eq_self.mpr
      intro e he
      obtain ⟨⟨n1, hn1, hs1⟩, ⟨n2, hn2, hs2⟩⟩ := hedges e he
      simp only [decide_eq_true_eq]
      exact ⟨hs1 ▸ hnodes n1 hn1, hs2 ▸ hnodes n2 hn2⟩
    have hs : s.selectedId ≠ some id := by
      rcases hsel with h | ⟨n, hn, hsome⟩
      · simp [h]
      · rw [← hsome]
        simp only [ne_eq, Option.some.injEq]
        exact hnodes n hn
    unfold deleteNodeV4
    rw [if_neg hs, hn, he]
  · intro e he
    have := List.mem_filter.mp he
    simpa using this.2
  · intro n hn
    have := List.mem_filter.mp hn
    simpa using this.2
  · rfl

/-- Witness for C5 at concrete states, including the absent-id no-op. -/
theorem claim_C5_deleteNode_witness :
    (deleteNodeV4 c5State "A").selectedId = c5State.selectedId ∧
    deleteNodeV4 c5State "Z" = c5State :=
  ⟨(claim_C5_deleteNode c5State "A").2.2.2.2.1 (by decide),
   (claim_C5_deleteNode c5State "Z").2.2.2.2.2.1
    (by decide) (by decide) (by decide)⟩

/-! ## C6: the history stack is bounded by 50 entries -/

theorem saveHistory_le (s : GraphState) (h : s.history.length ≤ 50) :
    (saveHistory s).history.length ≤ 50 := by
  simp only [saveHistory]
  split
  · simpa using h
  · next hlt =>
    simp only [List.length_append, List.length_singleton]
    simp only [List.length_append, List.length_singleton] at hlt
    omega

/-- C6: every v3.2 mutating operation preserves the 50-entry history
bound, hence any operation sequence from a bounded state stays bounded;
and a snapshot push at capacity evicts exactly the oldest entry. -/
theorem claim_C6_history_bound :
    (∀ (s : GraphState) (op : Op), s.history.length ≤ 50 →
      (applyOpV32 op s).history.length ≤ 50) ∧
    (∀ (ops : List Op) (s : GraphState), s.history.length ≤ 50 →
      (ops.foldl (fun t op => applyOpV32 op t) s).history.length ≤ 50) ∧
    (∀ s : GraphState, s.history.length = 50 →
      (saveHistory s).history = s.history.drop 1 ++ [(s.nodes, s.edges)]) := by
  have hstep : ∀ (s : GraphState) (op : Op), s.history.length ≤ 50 →
      (applyOpV32 op s).history.length ≤ 50 := by
    intro s op h
    cases op with
    | addNode cfg newId => exact saveHistory_le _ (by simpa using h)
    | addEdge a b ty newId =>
      simp only [applyOpV32, addEdgeV32]
      split
      · exact h
      · split
        · exact h
        · exact saveHistory_le _ (by simpa using h)
    | deleteNode id => exact saveHistory_le _ (by simpa using h)
    | updateNode id u => simpa [applyOpV32, updateNodeV32] using h
    | undo =>
      simp only [applyOpV32, undoV32]
      split
      · exact h
      · split
        · simp only [List.length_dropLast]
          omega
        · exact h
  refine ⟨hstep, ?_, ?_⟩
  · intro ops
    induction ops with
    | nil => intro s h; exact h
    | cons op rest ih =>
      intro s h
      exact ih _ (hstep s op h)
  · intro s h
    have hlen : 50 < (s.history ++ [(s.nodes, s.edges)]).length := by
      simp [h]
    have hdrop : (s.history ++ [(s.nodes, s.edges)]).drop 1
        = s.history.drop 1 ++ [(s.nodes, s.edges)] :=
      List.drop_append_of_le_length (by omega)
    simp only [saveHistory, if_pos hlen, hdrop]

/-- Witness for C6: a concrete operation sequence from the empty state,
and eviction at a concrete full stack. -/
theorem claim_C6_history_bound_witness :
    (([Op.addNode {} "n1", Op.addNode {} "n2",
        Op.addEdge "n1" "n2" "default" "e1"]).foldl
      (fun t op => applyOpV32 op t) emptyState).history.length ≤ 50 ∧
    (saveHistory hist50State).history
      = hist50State.history.drop 1 ++ [(hist50State.nodes, hist50State.edges)] :=
  ⟨claim_C6_history_bound.2.1 _ emptyState (by decide),
   claim_C6_history_bound.2.2 hist50State (by decide)⟩

/-! ## C7: node id uniqueness -/

/-- C7 counterexample: the v4.1 addNode takes a caller-supplied id
verbatim, so two calls supplying the same id yield two nodes with equal
ids. -/
theorem claim_C7_counterexample :
    ¬ (((addNodeV11 (addNodeV11 emptyState dupData "g1") dupData "g2").nodes.map
        (fun n => n.id)).Nodup) := by decide

/-- C7 (amended): provided every id actually used by an addNode call,
caller-supplied or generated, is fresh for the state it executes in, the
resulting node ids are pairwise distinct. -/
theorem claim_C7_unique_ids (s : GraphState)
    (calls : List (V11NodeData × String))
    (h1 : (s.nodes.map (fun n => n.id)).Nodup)
    (h2 : freshCallsV11 s calls = true) :
    ((runAddsV11 s calls).nodes.map (fun n => n.id)).Nodup := by
  induction calls generalizing s with
  | nil => exact h1
  | cons c rest ih =>
    obtain ⟨d, g⟩ := c
    simp only [freshCallsV11, Bool.and_eq_true, Bool.not_eq_true'] at h2
    obtain ⟨hfresh, hrest⟩ := h2
    have hnotin : usedIdV11 d g ∉ s.nodes.map (fun n => n.id) := by
      intro hmem
      obtain ⟨n, hn, hid⟩ := List.mem_map.mp hmem
      have : s.nodes.any (fun n => n.id = usedIdV11 d g) = true :=
        List.any_eq_true.mpr ⟨n, hn, by simp [hid]⟩
      rw [hfresh] at this
      exact Bool.false_ne_true this
    have hmap : (addNodeV11 s d g).nodes.map (fun n => n.id)
        = s.nodes.map (fun n => n.id) ++ [usedIdV11 d g] := by
      simp [addNodeV11, saveHistory, usedIdV11]
    refine ih (addNodeV11 s d g) ?_ hrest
    rw [hmap]
    simp only [List.nodup_append, List.nodup_cons, List.not_mem_nil,
      not_false_eq_true, List.nodup_nil, and_true, true_and]
    exact ⟨h1, by simpa [List.disjoint_singleton] using hnotin⟩

/-- Witness for C7: two generated-id calls from the empty state. -/
theorem claim_C7_unique_ids_witness :
    ((runAddsV11 emptyState [({}, "g1"), ({}, "g2")]).nodes.map
      (fun n => n.id)).Nodup :=
  claim_C7_unique_ids emptyState [({}, "g1"), ({}, "g2")] (by decide) (by decide)

/-- C8: on an unparsable stored blob the v3.2 load propagates the parse
exception to its caller, while the v4.0 load never throws and returns
none exactly on missing or unparsable data. -/
theorem claim_C8_load (p : String → Except Unit GraphState) (s : String)
    (hp : p s = .error ()) (hs : s ≠ "") :
    loadV32 p (some s) = .error () ∧
    (∀ blob, ∃ r, loadV4 p blob = .ok r) ∧
    loadV4 p (some s) = .ok none ∧
    loadV4 p none = .ok none := by
  refine ⟨by simp [loadV32, hs, hp, Except.map], ?_, by simp [loadV4, hs, hp], rfl⟩
  intro blob
  match blob with
  | none => exact ⟨none, rfl⟩
  | some t =>
    simp only [loadV4]
    by_cases ht : t = ""
    · exact ⟨none, by simp [ht]⟩
    · match hpt : p t with
      | .ok g => exact ⟨some g, by simp [ht, hpt]⟩
      | .error e => exact ⟨none, by simp [ht, hpt]⟩

/-- Witness for C8: a concrete parse function rejecting a concrete
blob. -/
theorem claim_C8_load_witness :
    loadV32 (fun _ => .error ()) (some "not json") = .error () ∧
    (∀ blob, ∃ r, loadV4 (fun _ => .error ()) blob = .ok r) ∧
    loadV4 (fun _ => .error ()) (some "not json") = .ok none ∧
    loadV4 (fun _ => .error ()) none = .ok none :=
  claim_C8_load (fun _ => .error ()) "not json" rfl (by decide)

/-- C9 counterexample: a focused SELECT element is overwritten by
updateValues even while it holds focus, contradicting the claim that a
focused editable field's displayed value is left unchanged. -/
theorem claim_C9_counterexample :
    (setVal { tag := FieldTag.select, value := "note", focused := true }
      "hub").value
      = "hub" ∧
    ({ tag := FieldTag.select, value := "note", focused := true }
        : EditField).focused = true ∧
    (setVal { tag := FieldTag.select, value := "note", focused := true }
      "hub").value
      ≠ ({ tag := FieldTag.select, value := "note", focused := true }
        : EditField).value := by decide

/-- C9 (amended): a re-render leaves a focused text-entry field (input or
textarea) unchanged and applies the new value once focus is lost, both in
updateValues and in ensureRow; SELECT fields are resynchronized even
while focused. -/
theorem claim_C9_focus_preservation :
    (∀ (f : EditField) (v : String), f.focused = true →
      f.tag ≠ FieldTag.select → (setVal f v).value = f.value) ∧
    (∀ (f : EditField) (v : String), f.focused = false →
      (setVal f v).value = v) ∧
    (∀ (f : EditField) (t : String), f.focused = true →
      (ensureRowUpdate f t).value = f.value) ∧
    (∀ (f : EditField) (t : String), f.focused = false →
      (ensureRowUpdate f t).value = t) := by
  refine ⟨?_, ?_, ?_, ?_⟩
  · intro f v hf ht
    simp [setVal, hf, ht]
  · intro f v hf
    simp [setVal, hf]
  · intro f t hf
    simp [ensureRowUpdate, hf]
  · intro f t hf
    simp [ensureRowUpdate, hf]

/-- Witness for C9: a focused text input keeps its in-progress value; the
same field unfocused receives the upstream value. -/
theorem claim_C9_focus_preservation_witness :
    (setVal { tag := FieldTag.input, value := "typing", focused := true }
      "upstream").value = "typing" ∧
    (setVal { tag := FieldTag.input, value := "typing", focused := false }
      "upstream").value = "upstream" ∧
    (ensureRowUpdate
      { tag := FieldTag.input, value := "typing", focused := true }
      "upstream").value = "typing" :=
  ⟨claim_C9_focus_preservation.1 _ "upstream" rfl (by decide),
   claim_C9_focus_preservation.2.1 _ "upstream" rfl,
   claim_C9_focus_preservation.2.2.1 _ "upstream" rfl⟩

theorem layoutRecV4_cycle_none :
    ∀ (fuel : Nat) (x y : ℚ) (pm : PosMap),
      layoutRecV4 cycNodes cycEdges 250 150 fuel "A" x y pm = none ∧
      layoutRecV4 cycNodes cycEdges 250 150 fuel "B" x y pm = none := by
  intro fuel
  induction fuel with
  | zero =>
    intro x y pm
    constructor <;> rw [layoutRecV4]
  | succ fuel ih =>
    have ihA : ∀ (x y : ℚ) (pm : PosMap),
        layoutRecV4 cycNodes cycEdges 250 150 fuel "A" x y pm = none :=
      fun x y pm => (ih x y pm).1
    have ihB : ∀ (x y : ℚ) (pm : PosMap),
        layoutRecV4 cycNodes cycEdges 250 150 fuel "B" x y pm = none :=
      fun x y pm => (ih x y pm).2
    simp only [cycNodes, cycEdges, nodeA, nodeB, edgeAB, edgeBA,
      Prod.mk_zero_zero] at ihA ihB
    intro x y pm
    constructor <;>
    · rw [layoutRecV4]
      simp [cycNodes, cycEdges, nodeA, nodeB, edgeAB, edgeBA,
        layoutKidsV4, ihA, ihB]

/-- C2: on the cyclic graph A to B to A the v4.0 autoLayout exhausts
every fuel bound: the recursion, which lacks the visited-set guard the
specification requires, never terminates. -/
theorem claim_C2_autoLayout_cycle_diverges (fuel : Nat) :
    autoLayoutV4 fuel cycNodes cycEdges 250 150 = none := by
  have h := (layoutRecV4_cycle_none fuel 0 0
    (cycNodes.map (fun n => (n.id, n.pos)))).1
  simp only [cycNodes, cycEdges, nodeA, nodeB, edgeAB, edgeBA, List.map,
    Prod.mk_zero_zero] at h
  unfold autoLayoutV4
  simp [cycNodes, cycEdges, nodeA, nodeB, edgeAB, edgeBA, h]

end MetaMind

